import Mathlib

/-!
Verification of the sandboxed file-access layer of mcp_server.py.

The program exposes four tools (read_file_tool, list_files_in_directory_tool,
read_multiple_files_tool, search_file_content_tool) over a fixed allowed
directory. This file gives a shallow embedding of those functions over an
explicit filesystem model:

* a filesystem is a finite association list from absolute paths (component
  lists) to entries (directory, regular file, or symbolic link);
* Path.resolve is modelled by resolveComps, which eliminates dot-dot
  segments and follows symbolic links component by component, with the
  usual bounded link-following budget (40, as in the C library and CPython);
* pathlib glob patterns are modelled by a tokenizer plus matcher with the
  fnmatch semantics (star, question mark, character classes), and directory
  scans by globSelect over the entry table; a double-star component scans
  all descendant directories, as pathlib rglob does;
* operations that can raise in Python (resolve, open, glob) return
  Except Exc; each tool is the body wrapped in its handler chain, so a tool
  result of Except.ok models a string returned to the transport and
  Except.error models an uncaught exception escaping the tool.

File contents are modelled as decoded text, undecodable bytes, or an
unreadable (permission-denied) blob; the byte size of a text file is its
UTF-8 byte count, matching what stat reports for a UTF-8 file on disk.
sorted() over Path values is modelled as sorting componentwise by the
string order on each component, which coincides with the Python order
whenever the compared paths live in one directory (the case every ordering
claim exercises); str.lower is the characterwise lowercase map, which
agrees with Python on the ASCII range.
The exact wording Python puts into str(e) for an OS exception is abstracted
by Exc.msg; every result string a claim depends on is reproduced verbatim
from the source.
-/

/-- Absolute paths are lists of path components, with the leading slash
implicit: the root directory is the empty list. -/
abbrev FsPath := List String

/-- Content of a regular file: decoded UTF-8 text, undecodable binary bytes
(reading raises UnicodeDecodeError), or a blob the process may not open
(reading raises PermissionError). -/
inductive FileData where
  | text (s : String)
  | binary (size : Nat)
  | unreadable (size : Nat)
deriving DecidableEq

/-- The byte size stat reports: for decoded text, its UTF-8 byte count. -/
def FileData.size : FileData → Nat
  | .text s => s.utf8ByteSize
  | .binary n => n
  | .unreadable n => n

/-- One filesystem entry. A symbolic link stores its raw target string,
which may be absolute or relative. -/
inductive Entry where
  | dir
  | file (data : FileData)
  | symlink (target : String)
deriving DecidableEq

/-- A filesystem: a finite table from absolute paths to entries. -/
structure FS where
  entries : List (FsPath × Entry)
deriving DecidableEq

/-- Raw (symlink-unaware) lookup of a path in the entry table. -/
def lookupEntry (entries : List (FsPath × Entry)) (p : FsPath) : Option Entry :=
  (entries.find? (fun e => e.1 == p)).map (fun e => e.2)

/-- The lookup function of a filesystem. -/
def FS.look (fs : FS) : FsPath → Option Entry := lookupEntry fs.entries

/-- The Python exceptions the source can raise or catch. -/
inductive Exc where
  | permissionError
  | unicodeDecodeError
  | valueError (m : String)
  | osError (m : String)
  | other (m : String)
deriving DecidableEq

/-- What str(e) renders for an exception; OS message texts are abstract. -/
def Exc.msg : Exc → String
  | .permissionError => "Permission denied"
  | .unicodeDecodeError => "invalid utf-8 byte"
  | .valueError m => m
  | .osError m => m
  | .other m => m

/-- Split a character list at every slash (the semantics of splitting a
string on a one-character separator). -/
def splitSlashAux (acc : List Char) : List Char → List String
  | [] => [String.mk acc.reverse]
  | c :: rest =>
    if c = '/' then String.mk acc.reverse :: splitSlashAux [] rest
    else splitSlashAux (c :: acc) rest

/-- PurePath parsing of a path string: split on slashes, drop empty and
single-dot components, keep dot-dot components (pathlib keeps them). -/
def pyParts (s : String) : List String :=
  (splitSlashAux [] s.data).filter (fun c => c != "" && c != ".")

/-- Path.is_absolute on POSIX: the string starts with a slash. -/
def pyIsAbsolute (s : String) : Bool :=
  match s.data with
  | c :: _ => c = '/'
  | [] => false

/-- Core of Path.resolve: walk the components left to right over an already
canonical accumulator; a dot-dot component drops the last canonical
component, any other component is appended, and the walk stops at the first
component naming a symbolic link, reporting the position and the link
target. This is the POSIX realpath algorithm in its non-strict form:
components that do not exist are kept as written. -/
def walkNoLink (look : FsPath → Option Entry) :
    FsPath → List String → FsPath ⊕ (FsPath × List String × String)
  | acc, [] => Sum.inl acc
  | acc, c :: rest =>
    if c = ".." then walkNoLink look acc.dropLast rest
    else match look (acc ++ [c]) with
      | some (Entry.symlink target) => Sum.inr (acc, rest, target)
      | _ => walkNoLink look (acc ++ [c]) rest

/-- Resolution proper: walk until a symlink shows up, then restart on its
target (absolute targets from the root, relative ones from the link's
parent), spending one unit of link-following budget each time. -/
def resolveComps (look : FsPath → Option Entry) :
    Nat → FsPath → List String → Except Exc FsPath
  | fuel, acc, comps =>
    match walkNoLink look acc comps with
    | Sum.inl p => .ok p
    | Sum.inr (acc', rest, target) =>
      match fuel with
      | 0 => .error (Exc.osError "Too many levels of symbolic links")
      | fuel' + 1 =>
        resolveComps look fuel'
          (if pyIsAbsolute target then [] else acc') (pyParts target ++ rest)

/-- Path.resolve of an absolute path given as its component list. -/
def pyResolve (look : FsPath → Option Entry) (p : FsPath) : Except Exc FsPath :=
  resolveComps look 40 [] p

/-- os.stat of a path: resolve it fully, then look it up; stat failures
(including a failed resolution) surface as none, which is how the
exception-free Path.exists and Path.is_file report them. -/
def statAt (look : FsPath → Option Entry) (p : FsPath) : Option Entry :=
  match pyResolve look p with
  | .ok q => look q
  | .error _ => none

/-- Path.exists (follows symlinks). -/
def existsAt (look : FsPath → Option Entry) (p : FsPath) : Bool :=
  (statAt look p).isSome

/-- Path.is_file (follows symlinks). -/
def isFileAt (look : FsPath → Option Entry) (p : FsPath) : Bool :=
  match statAt look p with
  | some (Entry.file _) => true
  | _ => false

/-- Path.is_dir (follows symlinks). -/
def isDirAt (look : FsPath → Option Entry) (p : FsPath) : Bool :=
  match statAt look p with
  | some Entry.dir => true
  | _ => false

/-- stat().st_size of a path; only queried on paths that pass is_file. -/
def sizeAt (look : FsPath → Option Entry) (p : FsPath) : Nat :=
  match statAt look p with
  | some (Entry.file d) => d.size
  | _ => 0

/-- open(p).read() with UTF-8 decoding: follows symlinks, raises
UnicodeDecodeError on undecodable content and PermissionError on an
unreadable file. -/
def readAt (look : FsPath → Option Entry) (p : FsPath) : Except Exc String :=
  match statAt look p with
  | some (Entry.file (FileData.text s)) => .ok s
  | some (Entry.file (FileData.binary _)) => .error Exc.unicodeDecodeError
  | some (Entry.file (FileData.unreadable _)) => .error Exc.permissionError
  | some Entry.dir => .error (Exc.osError "Is a directory")
  | some (Entry.symlink _) => .error (Exc.osError "Too many levels of symbolic links")
  | none => .error (Exc.osError "No such file or directory")

/-- Scan a character-class body: everything up to the closing bracket. -/
def splitCls : List Char → Option (List Char × List Char)
  | [] => none
  | c :: rest =>
    if c = ']' then some ([], rest)
    else (splitCls rest).map (fun x => (c :: x.1, x.2))

theorem splitCls_length {l b r : List Char} (h : splitCls l = some (b, r)) :
    r.length < l.length := by
  induction l generalizing b r with
  | nil => simp [splitCls] at h
  | cons c rest ih =>
    simp only [splitCls] at h
    split at h
    · cases h; simp
    · match hr : splitCls rest with
      | none => rw [hr] at h; simp at h
      | some (b', r') =>
        rw [hr] at h
        simp at h
        have := ih hr
        simp [← h.2]
        omega

/-- The body and remainder of a character class: a closing bracket in first
position is a literal member, then everything up to the closing bracket is
the body (fnmatch.translate semantics). -/
def clsBody : List Char → Option (List Char × List Char)
  | [] => none
  | c :: r2 =>
    if c = ']' then (splitCls r2).map (fun x => (']' :: x.1, x.2))
    else splitCls (c :: r2)

theorem clsBody_length {l : List Char} {y : List Char × List Char}
    (h : clsBody l = some y) : y.2.length < l.length := by
  match l with
  | [] => simp [clsBody] at h
  | c :: r2 =>
    simp only [clsBody] at h
    split at h
    · simp only [Option.map_eq_some'] at h
      obtain ⟨z, hz, hyz⟩ := h
      have := splitCls_length (b := z.1) (r := z.2) (by simpa using hz)
      rw [← hyz]
      simp
      omega
    · obtain ⟨b, r⟩ := y
      have := splitCls_length h
      simpa using this

/-- Parse the inside of a character class after the opening bracket: a
leading bang negates the class. Returns (negated, body, remaining pattern). -/
def clsParse : List Char → Option (Bool × List Char × List Char)
  | [] => none
  | c :: r =>
    if c = '!' then (clsBody r).map (fun x => (true, x.1, x.2))
    else (clsBody (c :: r)).map (fun x => (false, x.1, x.2))

theorem clsParse_length {rest : List Char} {x : Bool × List Char × List Char}
    (h : clsParse rest = some x) : x.2.2.length < rest.length := by
  match rest with
  | [] => simp [clsParse] at h
  | c :: r =>
    simp only [clsParse] at h
    split at h <;>
    · simp only [Option.map_eq_some'] at h
      obtain ⟨y, hy, hx⟩ := h
      have := clsBody_length hy
      rw [← hx]
      simp at this ⊢
      omega

/-- One token of an fnmatch pattern. -/
inductive GlobTok where
  | star
  | qmark
  | lit (c : Char)
  | cls (neg : Bool) (body : List Char)
deriving DecidableEq

/-- Fueled tokenizer of an fnmatch pattern: star, question mark, character
classes, and an opening bracket with no closing one is a literal, as in
fnmatch.translate. Each step consumes at least one character, so fuel equal
to the length of the input never runs out. -/
def globToksF : Nat → List Char → List GlobTok
  | 0, _ => []
  | fuel + 1, l =>
    match l with
    | [] => []
    | c :: rest =>
      if c = '*' then GlobTok.star :: globToksF fuel rest
      else if c = '?' then GlobTok.qmark :: globToksF fuel rest
      else if c = '[' then
        match clsParse rest with
        | some x => GlobTok.cls x.1 x.2.1 :: globToksF fuel x.2.2
        | none => GlobTok.lit '[' :: globToksF fuel rest
      else GlobTok.lit c :: globToksF fuel rest

/-- Tokenize an fnmatch pattern. -/
def globToks (l : List Char) : List GlobTok :=
  globToksF l.length l

/-- Membership of a character in a class body, with dash ranges. -/
def clsHas (c : Char) : List Char → Bool
  | a :: '-' :: b :: rest => (decide (a ≤ c) && decide (c ≤ b)) || clsHas c rest
  | a :: rest => (a == c) || clsHas c rest
  | [] => false

/-- A list together with all its suffixes, longest first. -/
def sufs : List Char → List (List Char)
  | [] => [[]]
  | c :: cs => (c :: cs) :: sufs cs

/-- The fnmatch matcher over tokenized patterns: a star token matches when
the remaining tokens match some suffix of the text, which is exactly the
semantics of the dot-star regular expression fnmatch.translate compiles a
star to. -/
def tokMatch : List GlobTok → List Char → Bool
  | [], cs => cs.isEmpty
  | GlobTok.star :: ps, cs => (sufs cs).any (fun t => tokMatch ps t)
  | GlobTok.qmark :: ps, cs =>
    match cs with
    | [] => false
    | _ :: cs' => tokMatch ps cs'
  | GlobTok.lit p :: ps, cs =>
    match cs with
    | [] => false
    | c :: cs' => (p == c) && tokMatch ps cs'
  | GlobTok.cls neg body :: ps, cs =>
    match cs with
    | [] => false
    | c :: cs' => (clsHas c body != neg) && tokMatch ps cs'

/-- fnmatch of a file name against one pattern component (case-sensitive,
as pathlib matching is on POSIX). -/
def fnmatch (pat name : String) : Bool :=
  tokMatch (globToks pat.data) name.data

/-- The allowed root directory, fixed at process start (module line 10);
its literal path is taken as already canonical, which is what the startup
resolve produces on a symlink-free install path. -/
def ALLOWED_DIRECTORY : FsPath :=
  ["home", "devkhajd", "mcp_server_demo", "demo3", "files", "ieee", "ieee_txt_files"]

/-- Render an absolute path the way str(Path) does. -/
def renderPath (p : FsPath) : String :=
  "/" ++ String.intercalate "/" p

/-- Path.name: the last component (empty for the root). -/
def nameOf (p : FsPath) : String :=
  p.getLastD ""

/-- Drop a leading component sequence: some rest when the whole first list
is an initial run of the second. -/
def dropPref : FsPath → FsPath → Option FsPath
  | [], l => some l
  | _ :: _, [] => none
  | a :: as, b :: bs => if a = b then dropPref as bs else none

theorem dropPref_eq_some {pre l rest : FsPath} :
    dropPref pre l = some rest ↔ l = pre ++ rest := by
  induction pre generalizing l with
  | nil => simp [dropPref]
  | cons a as ih =>
    cases l with
    | nil => simp [dropPref]
    | cons b bs =>
      simp only [dropPref]
      split
      · rename_i hab
        subst hab
        simp [ih]
      · rename_i hab
        simp
        intro hb
        exact fun _ => hab hb.symm

/-- Path.is_relative_to: the first path equals the second or is below it. -/
def isRelTo (p base : FsPath) : Bool :=
  (dropPref base p).isSome

/-- The direct children of a directory whose name matches one glob
component, in entry-table order (the scan order of the directory). -/
def childMatches (entries : List (FsPath × Entry)) (dir : FsPath) (part : String) :
    List FsPath :=
  entries.filterMap (fun e =>
    match dropPref dir e.1 with
    | some [n] => if fnmatch part n then some e.1 else none
    | _ => none)

/-- The directory itself and every directory entry strictly below it: what a
double-star pattern component walks. -/
def descendantDirs (entries : List (FsPath × Entry)) (dir : FsPath) : List FsPath :=
  dir :: entries.filterMap (fun e =>
    match e.2, dropPref dir e.1 with
    | Entry.dir, some (_ :: _) => some e.1
    | _, _ => none)

/-- pathlib glob selector chain: each pattern component maps the current
candidate set to the next; a double-star component expands to all
descendant directories, any other component to matching children. -/
def globSelect (entries : List (FsPath × Entry)) (dirs : List FsPath) :
    List String → List FsPath
  | [] => dirs
  | part :: rest =>
    let next := if part = "**"
      then dirs.flatMap (descendantDirs entries)
      else dirs.flatMap (fun d => childMatches entries d part)
    globSelect entries next rest

/-- Pattern components of a glob pattern (empty and dot components are
dropped by the path parser pathlib feeds patterns through). -/
def globParts (pat : String) : List String :=
  (splitSlashAux [] pat.data).filter (fun c => c != "" && c != ".")

/-- Path.glob: raises ValueError on an empty pattern and refuses absolute
patterns, otherwise runs the selector chain from the target directory. -/
def globOp (fs : FS) (dir : FsPath) (pat : String) : Except Exc (List FsPath) :=
  if pat = "" then .error (Exc.valueError "Unacceptable pattern")
  else if pyIsAbsolute pat then .error (Exc.other "Non-relative patterns are unsupported")
  else .ok (globSelect fs.entries [dir] (globParts pat))

/-- Path.rglob: a glob with a double-star component put in front, always
rooted at the allowed directory in this program. -/
def rglobOp (fs : FS) (pat : String) : Except Exc (List FsPath) :=
  if pyIsAbsolute pat then .error (Exc.other "Non-relative patterns are unsupported")
  else .ok (globSelect fs.entries [ALLOWED_DIRECTORY] ("**" :: globParts pat))

/-- Lexicographic strict order on character lists: the order Python uses
to compare strings (by code point). -/
def charsLt : List Char → List Char → Bool
  | [], [] => false
  | [], _ :: _ => true
  | _ :: _, [] => false
  | a :: as, b :: bs => if a = b then charsLt as bs else decide (a < b)

/-- String comparison, spelled out over the character lists so that it
evaluates inside the kernel. -/
def strLt (a b : String) : Bool := charsLt a.data b.data

theorem charsLt_trans : ∀ {a b c : List Char},
    charsLt a b = true → charsLt b c = true → charsLt a c = true := by
  intro a
  induction a with
  | nil =>
    intro b c h1 h2
    cases b with
    | nil => exact h2
    | cons x xs =>
      cases c with
      | nil => simp [charsLt] at h2
      | cons y ys => rfl
  | cons x xs ih =>
    intro b c h1 h2
    cases b with
    | nil => simp [charsLt] at h1
    | cons y ys =>
      cases c with
      | nil => simp [charsLt] at h2
      | cons z zs =>
        simp only [charsLt] at h1 h2 ⊢
        by_cases hxy : x = y <;> by_cases hyz : y = z
        · subst hxy; subst hyz
          simp only [if_pos rfl] at h1 h2 ⊢
          exact ih h1 h2
        · subst hxy
          simp_all
        · subst hyz
          simp_all
        · rw [if_neg hxy] at h1
          rw [if_neg hyz] at h2
          have hxz : x < z := lt_trans (of_decide_eq_true h1) (of_decide_eq_true h2)
          have hne : ¬x = z := fun hh => lt_irrefl z (hh ▸ hxz)
          rw [if_neg hne, decide_eq_true hxz]

theorem charsLt_asymm : ∀ {a b : List Char},
    charsLt a b = true → charsLt b a = true → False := by
  intro a
  induction a with
  | nil =>
    intro b h1 h2
    cases b with
    | nil => simp [charsLt] at h1
    | cons y ys => simp [charsLt] at h2
  | cons x xs ih =>
    intro b h1 h2
    cases b with
    | nil => simp [charsLt] at h1
    | cons y ys =>
      simp only [charsLt] at h1 h2
      by_cases hxy : x = y
      · subst hxy
        simp only [if_pos rfl] at h1 h2
        exact ih h1 h2
      · rw [if_neg hxy] at h1
        rw [if_neg (fun hh => hxy hh.symm)] at h2
        exact absurd (lt_trans (of_decide_eq_true h1) (of_decide_eq_true h2))
          (lt_irrefl x)

theorem charsLt_total : ∀ {a b : List Char}, a ≠ b →
    charsLt a b = true ∨ charsLt b a = true := by
  intro a
  induction a with
  | nil =>
    intro b hne
    cases b with
    | nil => exact absurd rfl hne
    | cons y ys => left; rfl
  | cons x xs ih =>
    intro b hne
    cases b with
    | nil => right; rfl
    | cons y ys =>
      by_cases hxy : x = y
      · subst hxy
        have hys : xs ≠ ys := fun hh => hne (by rw [hh])
        simpa [charsLt] using ih hys
      · rcases lt_trichotomy x y with h | h | h
        · left; simp [charsLt, hxy, h]
        · exact absurd h hxy
        · right
          have hyx : ¬y = x := fun hh => hxy hh.symm
          simp only [charsLt, if_neg hyx]
          exact decide_eq_true h

/-- Ordering of paths as sorted() orders Path values: componentwise, by the
string order on each component. -/
def pathLeB : FsPath → FsPath → Bool
  | [], _ => true
  | _ :: _, [] => false
  | a :: as, b :: bs => if a = b then pathLeB as bs else strLt a b

/-- The path order as a relation. -/
def PathLe (p q : FsPath) : Prop := pathLeB p q = true

instance : DecidableRel PathLe := fun p q => by
  unfold PathLe
  infer_instance

theorem strNeData {a b : String} (h : a ≠ b) : a.data ≠ b.data :=
  fun hh => h (String.ext hh)

theorem pathLeB_total (p q : FsPath) : pathLeB p q = true ∨ pathLeB q p = true := by
  induction p generalizing q with
  | nil => left; rfl
  | cons a as ih =>
    cases q with
    | nil => right; rfl
    | cons b bs =>
      by_cases hab : a = b
      · subst hab
        simpa [pathLeB] using ih bs
      · rcases charsLt_total (strNeData hab) with h | h
        · left; simp [pathLeB, hab, strLt, h]
        · right
          have hba : ¬b = a := fun hba => hab hba.symm
          simp only [pathLeB, if_neg hba]
          exact h

theorem pathLeB_trans {p q r : FsPath} (h1 : pathLeB p q = true)
    (h2 : pathLeB q r = true) : pathLeB p r = true := by
  induction p generalizing q r with
  | nil => rfl
  | cons a as ih =>
    cases q with
    | nil => simp [pathLeB] at h1
    | cons b bs =>
      cases r with
      | nil => simp [pathLeB] at h2
      | cons c cs =>
        simp only [pathLeB] at h1 h2 ⊢
        by_cases hab : a = b <;> by_cases hbc : b = c
        · subst hab; subst hbc
          simp only [if_pos rfl] at h1 h2 ⊢
          exact ih h1 h2
        · subst hab
          simp_all
        · subst hbc
          simp_all
        · rw [if_neg hab] at h1
          rw [if_neg hbc] at h2
          by_cases hac : a = c
          · subst hac
            exact (charsLt_asymm h1 h2).elim
          · rw [if_neg hac]
            exact charsLt_trans h1 h2

theorem pathLeB_antisymm {p q : FsPath} (h1 : pathLeB p q = true)
    (h2 : pathLeB q p = true) : p = q := by
  induction p generalizing q with
  | nil =>
    cases q with
    | nil => rfl
    | cons b bs => simp [pathLeB] at h2
  | cons a as ih =>
    cases q with
    | nil => simp [pathLeB] at h1
    | cons b bs =>
      simp only [pathLeB] at h1 h2
      by_cases hab : a = b
      · subst hab
        simp only [if_pos rfl] at h1 h2
        rw [ih h1 h2]
      · rw [if_neg hab] at h1
        rw [if_neg (fun h => hab h.symm)] at h2
        exact (charsLt_asymm h1 h2).elim

instance : IsTotal FsPath PathLe := ⟨pathLeB_total⟩

instance : IsTrans FsPath PathLe := ⟨fun _ _ _ => pathLeB_trans⟩

instance : IsAntisymm FsPath PathLe := ⟨fun _ _ => pathLeB_antisymm⟩

/-- sorted(files): Python sorted over Path values. -/
def sortPaths (l : List FsPath) : List FsPath :=
  List.insertionSort PathLe l

/-- str(ALLOWED_DIRECTORY) as it appears inside the denial message. -/
def ALLOWED_DIRECTORY_STR : String := renderPath ALLOWED_DIRECTORY

/-- The access-denied message of is_path_allowed (module line 24). -/
def deniedMsg : String :=
  "Error: Access denied.  Only files within '" ++ ALLOWED_DIRECTORY_STR ++
    "' are allowed."

/-- How both read_file_tool and the listing tools turn a caller string into
the candidate absolute path: an absolute string stands alone, anything else
is joined under the allowed directory (module lines 44-46, 87-90). -/
def joinToRoot (s : String) : FsPath :=
  if pyIsAbsolute s then pyParts s else ALLOWED_DIRECTORY ++ pyParts s

/-- is_path_allowed (module lines 13-28): resolve the given path string
again, test containment in the allowed directory on the resolved path, and
turn a resolution failure into an error pair. The tools only ever pass it
the rendering of an absolute path, which reparses to the same components,
so the model takes the component list directly. -/
def is_path_allowed (look : FsPath → Option Entry) (path : FsPath) : Bool × String :=
  match pyResolve look path with
  | .ok p =>
    if isRelTo p ALLOWED_DIRECTORY then (true, "")
    else (false, deniedMsg)
  | .error e => (false, "Error: Invalid path - " ++ e.msg)

/-- The try-block of read_file_tool (module lines 43-63). -/
def read_file_body (fs : FS) (file_path : String) : Except Exc String :=
  match pyResolve fs.look (joinToRoot file_path) with
  | .error e => .error e
  | .ok path =>
    let allowed := is_path_allowed fs.look path
    if !allowed.1 then .ok allowed.2
    else if !existsAt fs.look path then
      .ok ("Error: File '" ++ nameOf path ++ "' does not exist in the allowed directory.")
    else if !isFileAt fs.look path then
      .ok ("Error: '" ++ nameOf path ++ "' is not a file.")
    else
      match readAt fs.look path with
      | .error e => .error e
      | .ok content =>
        .ok ("File: " ++ nameOf path ++ "\nPath: " ++ renderPath path ++
          "\n\nContent:\n" ++ content)

/-- The except-chain of read_file_tool (module lines 65-70). -/
def read_file_handler (file_path : String) : Exc → String
  | Exc.permissionError => "Error: Permission denied reading '" ++ file_path ++ "'."
  | Exc.unicodeDecodeError =>
    "Error: Unable to decode '" ++ file_path ++ "' as text.  It may be a binary file."
  | e => "Error reading file: " ++ e.msg

/-- read_file_tool: the body inside its handlers, as the transport sees it. -/
def read_file_tool (fs : FS) (file_path : String) : Except Exc String :=
  match read_file_body fs file_path with
  | .ok s => .ok s
  | .error e => .ok (read_file_handler file_path e)

/-- The target-directory computation shared by the two listing tools
(module lines 87-90 and 130-133): an empty subdirectory means the allowed
directory itself, unresolved; otherwise the joined path is resolved. -/
def targetDir (fs : FS) (subdirectory : String) : Except Exc FsPath :=
  if subdirectory = "" then .ok ALLOWED_DIRECTORY
  else pyResolve fs.look (joinToRoot subdirectory)

/-- Path.relative_to, raising ValueError when the base is not a leading
run of the path. -/
def relativeTo (p base : FsPath) : Except Exc String :=
  match dropPref base p with
  | some rest => .ok (String.intercalate "/" rest)
  | none => .error (Exc.valueError "is not in the subpath")

/-- The tail of list_files_in_directory_tool after the glob (module lines
102-108), as a function of the matched list. -/
def list_files_fmt (look : FsPath → Option Entry) (subdirectory pattern : String)
    (target : FsPath) (matched : List FsPath) : Except Exc String :=
  let files := matched.filter (fun f => isFileAt look f)
  if files.length = 0 then
    .ok ("No files found matching pattern '" ++ pattern ++
      "' in the specified directory.")
  else
    match relativeTo target ALLOWED_DIRECTORY.dropLast with
    | .error e => .error e
    | .ok rel =>
      let fileList := String.intercalate "\n" ((sortPaths files).map (fun f =>
        "  - " ++ nameOf f ++ " (" ++ toString (sizeAt look f) ++ " bytes)"))
      .ok ("Files in '" ++ rel ++ "' matching '" ++ pattern ++ "':\n" ++
        fileList ++ "\n\nTotal: " ++ toString files.length ++ " file(s)")

/-- The try-block of list_files_in_directory_tool (module lines 85-108). -/
def list_files_body (fs : FS) (subdirectory pattern : String) : Except Exc String :=
  match targetDir fs subdirectory with
  | .error e => .error e
  | .ok target =>
    let allowed := is_path_allowed fs.look target
    if !allowed.1 then .ok allowed.2
    else if !existsAt fs.look target then
      .ok ("Error: Subdirectory '" ++ subdirectory ++
        "' does not exist in the allowed directory.")
    else if !isDirAt fs.look target then
      .ok ("Error: '" ++ subdirectory ++ "' is not a directory.")
    else
      match globOp fs target pattern with
      | .error e => .error e
      | .ok matched => list_files_fmt fs.look subdirectory pattern target matched

/-- The except-chain of list_files_in_directory_tool (module lines 110-113). -/
def list_files_handler : Exc → String
  | Exc.permissionError => "Error: Permission denied accessing the directory."
  | e => "Error listing files: " ++ e.msg

/-- list_files_in_directory_tool: the body inside its handlers. -/
def list_files_in_directory_tool (fs : FS) (subdirectory pattern : String) :
    Except Exc String :=
  match list_files_body fs subdirectory pattern with
  | .ok s => .ok s
  | .error e => .ok (list_files_handler e)

/-- The sixty-character separator line of read_multiple_files_tool. -/
def eqBanner : String := String.mk (List.replicate 60 '=')

/-- One entry of the read_multiple_files_tool output (module lines 152-160):
the per-file try turns a decode failure into an inline placeholder and any
other failure into an inline error line, aborting nothing. -/
def rmEntry (look : FsPath → Option Entry) (f : FsPath) : String :=
  match readAt look f with
  | .ok content =>
    "\n" ++ eqBanner ++ "\nFile: " ++ nameOf f ++ "\n" ++ eqBanner ++ "\n" ++
      content ++ "\n"
  | .error Exc.unicodeDecodeError =>
    "\n" ++ eqBanner ++ "\nFile: " ++ nameOf f ++ "\n" ++ eqBanner ++
      "\n[Binary file - cannot display as text]\n"
  | .error e =>
    "\n" ++ eqBanner ++ "\nFile: " ++ nameOf f ++ "\n" ++ eqBanner ++
      "\nError: " ++ e.msg ++ "\n"

/-- The tail of read_multiple_files_tool after the glob (module lines
145-162), as a function of the matched list. -/
def read_multiple_fmt (look : FsPath → Option Entry) (pattern : String)
    (target : FsPath) (matched : List FsPath) : Except Exc String :=
  let files := matched.filter (fun f => isFileAt look f)
  if files.length = 0 then
    .ok ("No files found matching pattern '" ++ pattern ++
      "' in the specified directory.")
  else
    match relativeTo target ALLOWED_DIRECTORY.dropLast with
    | .error e => .error e
    | .ok rel =>
      .ok (String.join (("Reading " ++ toString files.length ++
        " file(s) from '" ++ rel ++ "':\n") ::
        (sortPaths files).map (rmEntry look)))

/-- The try-block of read_multiple_files_tool (module lines 128-162). -/
def read_multiple_files_body (fs : FS) (subdirectory pattern : String) :
    Except Exc String :=
  match targetDir fs subdirectory with
  | .error e => .error e
  | .ok target =>
    let allowed := is_path_allowed fs.look target
    if !allowed.1 then .ok allowed.2
    else if !existsAt fs.look target then
      .ok ("Error: Subdirectory '" ++ subdirectory ++
        "' does not exist in the allowed directory.")
    else if !isDirAt fs.look target then
      .ok ("Error: '" ++ subdirectory ++ "' is not a directory.")
    else
      match globOp fs target pattern with
      | .error e => .error e
      | .ok matched => read_multiple_fmt fs.look pattern target matched

/-- read_multiple_files_tool: the body inside its catch-all handler
(module lines 164-165). -/
def read_multiple_files_tool (fs : FS) (subdirectory pattern : String) :
    Except Exc String :=
  match read_multiple_files_body fs subdirectory pattern with
  | .ok s => .ok s
  | .error e => .ok ("Error: " ++ e.msg)

/-- str.lower, mapped characterwise; agrees with the Python method on the
ASCII range. -/
def pyLower (s : String) : List Char :=
  s.data.map Char.toLower

/-- str.lower of both sides, then the Python substring test (module line
196). -/
def charsIn (needle : List Char) : List Char → Bool
  | [] => needle.isPrefixOf []
  | c :: t => needle.isPrefixOf (c :: t) || charsIn needle t

/-- The hit test of search_file_content_tool: the search term occurs as a
case-insensitive substring of the line. -/
def searchHit (term line : String) : Bool :=
  charsIn (pyLower term) (pyLower line)

/-- str.rstrip: drop trailing whitespace. -/
def pyRstrip (s : String) : String :=
  String.mk (s.data.reverse.dropWhile Char.isWhitespace).reverse

/-- file.readlines: split after every newline, keeping the newline; a last
line without one is kept too, and an empty file has no lines. -/
def readlinesAux (acc : List Char) : List Char → List (List Char)
  | [] => if acc.length = 0 then [] else [acc.reverse]
  | c :: rest =>
    if c = '\n' then (acc.reverse ++ ['\n']) :: readlinesAux [] rest
    else readlinesAux (c :: acc) rest

/-- readlines over a decoded content string. -/
def pyReadlines (s : String) : List String :=
  (readlinesAux [] s.data).map String.mk

/-- The line loop of search_file_content_tool (module lines 194-197):
1-indexed line numbers, a hit line rendered with its number and trailing
whitespace stripped. -/
def matchingLines (term : String) (lines : List String) : List String :=
  (lines.enumFrom 1).filterMap (fun p =>
    if searchHit term p.2 then
      some ("  Line " ++ toString p.1 ++ ": " ++ pyRstrip p.2)
    else none)

/-- The per-file try of search_file_content_tool (module lines 189-206):
none when the file is skipped (read failure of any kind) or has no hits. -/
def searchEntry (look : FsPath → Option Entry) (term : String) (f : FsPath) :
    Option String :=
  match readAt look f with
  | .error _ => none
  | .ok content =>
    let ml := matchingLines term (pyReadlines content)
    if ml.length = 0 then none
    else some ("\n " ++ nameOf f ++ ":\n" ++ String.intercalate "\n" ml)

/-- The tail of search_file_content_tool after the glob, as a function of
the matched list. -/
def search_fmt (look : FsPath → Option Entry) (search_term pattern : String)
    (matched : List FsPath) : Except Exc String :=
  let files := matched.filter (fun f => isFileAt look f)
  if files.length = 0 then
    .ok ("No files found matching pattern '" ++ pattern ++ "'.")
  else
    let results := (sortPaths files).filterMap (searchEntry look search_term)
    if results.length = 0 then
      .ok ("No matches found for '" ++ search_term ++ "' in files matching '" ++
        pattern ++ "'.")
    else
      .ok ("Found '" ++ search_term ++ "' in " ++ toString results.length ++
        " file(s):\n" ++ String.intercalate "\n" results)

/-- The try-block of search_file_content_tool (module lines 180-211): the
scan always runs over the whole allowed directory with rglob; there is no
subdirectory parameter. -/
def search_file_content_body (fs : FS) (search_term pattern : String) :
    Except Exc String :=
  match rglobOp fs pattern with
  | .error e => .error e
  | .ok matched => search_fmt fs.look search_term pattern matched

/-- search_file_content_tool: the body inside its catch-all handler
(module lines 213-214). -/
def search_file_content_tool (fs : FS) (search_term pattern : String) :
    Except Exc String :=
  match search_file_content_body fs search_term pattern with
  | .ok s => .ok s
  | .error e => .ok ("Error searching files: " ++ e.msg)

/-- A canonical path: no dot-dot component, and no leading run of it names
a symbolic link. Exactly the paths Path.resolve can return. -/
def CleanPath (look : FsPath → Option Entry) (p : FsPath) : Prop :=
  ∀ q c, (q ++ [c]) <+: p →
    c ≠ ".." ∧ ∀ t, look (q ++ [c]) ≠ some (Entry.symlink t)

theorem cleanPath_nil (look : FsPath → Option Entry) : CleanPath look [] := by
  intro q c h
  have := h.length_le
  simp at this

theorem cleanPath_dropLast {look : FsPath → Option Entry} {p : FsPath}
    (h : CleanPath look p) : CleanPath look p.dropLast := by
  intro q c hq
  exact h q c (hq.trans (List.dropLast_prefix p))

theorem cleanPath_append_one {look : FsPath → Option Entry} {p : FsPath} {c : String}
    (h : CleanPath look p) (hc : c ≠ "..")
    (hs : ∀ t, look (p ++ [c]) ≠ some (Entry.symlink t)) :
    CleanPath look (p ++ [c]) := by
  intro q d hq
  rcases List.prefix_concat_iff.mp hq with heq | hpre
  · have hqp : q = p ∧ d = c := by
      constructor
      · have := congrArg List.dropLast heq
        simpa using this
      · have := congrArg (fun l => l.getLast?) heq
        simpa using this
    rcases hqp with ⟨h1, h2⟩
    subst h1; subst h2
    exact ⟨hc, hs⟩
  · exact h q d hpre


theorem walkNoLink_nil {look : FsPath → Option Entry} {acc : FsPath} :
    walkNoLink look acc [] = Sum.inl acc := by
  rw [walkNoLink]

theorem walkNoLink_dotdot {look : FsPath → Option Entry} {acc : FsPath}
    {rest : List String} :
    walkNoLink look acc (".." :: rest) = walkNoLink look acc.dropLast rest := by
  rw [walkNoLink]
  simp

theorem walkNoLink_cons {look : FsPath → Option Entry} {acc : FsPath}
    {c : String} {rest : List String} (hc : c ≠ "..")
    (hs : ∀ t, look (acc ++ [c]) ≠ some (Entry.symlink t)) :
    walkNoLink look acc (c :: rest) = walkNoLink look (acc ++ [c]) rest := by
  rw [walkNoLink]
  rw [if_neg hc]
  match hl : look (acc ++ [c]) with
  | none => rfl
  | some Entry.dir => rfl
  | some (Entry.file _) => rfl
  | some (Entry.symlink t) => exact absurd hl (hs t)

theorem walkNoLink_symlink {look : FsPath → Option Entry} {acc : FsPath}
    {c : String} {rest : List String} {t : String} (hc : c ≠ "..")
    (hl : look (acc ++ [c]) = some (Entry.symlink t)) :
    walkNoLink look acc (c :: rest) = Sum.inr (acc, rest, t) := by
  rw [walkNoLink]
  rw [if_neg hc, hl]

/-- Both outcomes of the walk are canonical when the start is. -/
theorem walkNoLink_clean {look : FsPath → Option Entry} :
    ∀ (comps : List String) (acc : FsPath), CleanPath look acc →
      (∀ p, walkNoLink look acc comps = Sum.inl p → CleanPath look p) ∧
      (∀ a r t, walkNoLink look acc comps = Sum.inr (a, r, t) → CleanPath look a) := by
  intro comps
  induction comps with
  | nil =>
    intro acc h
    refine ⟨fun p hp => ?_, fun a r t hp => ?_⟩
    · rw [walkNoLink_nil] at hp
      cases hp
      exact h
    · rw [walkNoLink_nil] at hp
      cases hp
  | cons c rest ih =>
    intro acc h
    by_cases hc : c = ".."
    · subst hc
      refine ⟨fun p hp => ?_, fun a r t hp => ?_⟩
      · rw [walkNoLink_dotdot] at hp
        exact (ih acc.dropLast (cleanPath_dropLast h)).1 p hp
      · rw [walkNoLink_dotdot] at hp
        exact (ih acc.dropLast (cleanPath_dropLast h)).2 a r t hp
    · match hl : look (acc ++ [c]) with
      | some (Entry.symlink t0) =>
        refine ⟨fun p hp => ?_, fun a r t hp => ?_⟩
        · rw [walkNoLink_symlink hc hl] at hp
          cases hp
        · rw [walkNoLink_symlink hc hl] at hp
          cases hp
          exact h
      | none =>
        have hs : ∀ t, look (acc ++ [c]) ≠ some (Entry.symlink t) := by
          intro t ht; rw [hl] at ht; cases ht
        have hnext := ih (acc ++ [c]) (cleanPath_append_one h hc hs)
        refine ⟨fun p hp => ?_, fun a r t hp => ?_⟩
        · rw [walkNoLink_cons hc hs] at hp
          exact hnext.1 p hp
        · rw [walkNoLink_cons hc hs] at hp
          exact hnext.2 a r t hp
      | some Entry.dir =>
        have hs : ∀ t, look (acc ++ [c]) ≠ some (Entry.symlink t) := by
          intro t ht; rw [hl] at ht; cases ht
        have hnext := ih (acc ++ [c]) (cleanPath_append_one h hc hs)
        refine ⟨fun p hp => ?_, fun a r t hp => ?_⟩
        · rw [walkNoLink_cons hc hs] at hp
          exact hnext.1 p hp
        · rw [walkNoLink_cons hc hs] at hp
          exact hnext.2 a r t hp
      | some (Entry.file d) =>
        have hs : ∀ t, look (acc ++ [c]) ≠ some (Entry.symlink t) := by
          intro t ht; rw [hl] at ht; cases ht
        have hnext := ih (acc ++ [c]) (cleanPath_append_one h hc hs)
        refine ⟨fun p hp => ?_, fun a r t hp => ?_⟩
        · rw [walkNoLink_cons hc hs] at hp
          exact hnext.1 p hp
        · rw [walkNoLink_cons hc hs] at hp
          exact hnext.2 a r t hp

/-- Resolution only produces canonical paths. -/
theorem cleanPath_of_resolveComps {look : FsPath → Option Entry} :
    ∀ (fuel : Nat) (acc : FsPath) (comps : List String) (p : FsPath),
      CleanPath look acc → resolveComps look fuel acc comps = Except.ok p →
      CleanPath look p := by
  intro fuel
  induction fuel with
  | zero =>
    intro acc comps p hacc hres
    rw [resolveComps] at hres
    match hw : walkNoLink look acc comps with
    | Sum.inl q =>
      rw [hw] at hres
      cases hres
      exact (walkNoLink_clean comps acc hacc).1 _ hw
    | Sum.inr (a, r, t) =>
      rw [hw] at hres
      cases hres
  | succ fuel' ih =>
    intro acc comps p hacc hres
    rw [resolveComps] at hres
    match hw : walkNoLink look acc comps with
    | Sum.inl q =>
      rw [hw] at hres
      cases hres
      exact (walkNoLink_clean comps acc hacc).1 _ hw
    | Sum.inr (a, r, t) =>
      rw [hw] at hres
      refine ih _ _ p ?_ hres
      split
      · exact cleanPath_nil look
      · exact (walkNoLink_clean comps acc hacc).2 a r t hw

/-- A canonical path walks to itself. -/
theorem walkNoLink_of_clean {look : FsPath → Option Entry} :
    ∀ (comps : List String) (acc : FsPath), CleanPath look (acc ++ comps) →
      walkNoLink look acc comps = Sum.inl (acc ++ comps) := by
  intro comps
  induction comps with
  | nil =>
    intro acc h
    simp [walkNoLink_nil]
  | cons c rest ih =>
    intro acc h
    have hpre : (acc ++ [c]) <+: acc ++ c :: rest := by
      have : acc ++ c :: rest = (acc ++ [c]) ++ rest := by simp
      rw [this]
      exact List.prefix_append _ _
    have hc := h acc c hpre
    rw [walkNoLink_cons hc.1 hc.2]
    have heq : acc ++ c :: rest = (acc ++ [c]) ++ rest := by simp
    rw [heq] at h ⊢
    exact ih (acc ++ [c]) h

theorem resolveComps_of_clean {look : FsPath → Option Entry} {fuel : Nat}
    {comps : List String} {acc : FsPath} (h : CleanPath look (acc ++ comps)) :
    resolveComps look fuel acc comps = Except.ok (acc ++ comps) := by
  rw [resolveComps]
  rw [walkNoLink_of_clean comps acc h]

/-- Resolving a resolved path again changes nothing: resolution is
idempotent over any fixed filesystem. -/
theorem pyResolve_idem {look : FsPath → Option Entry} {p0 p : FsPath}
    (h : pyResolve look p0 = Except.ok p) : pyResolve look p = Except.ok p := by
  have hclean : CleanPath look p :=
    cleanPath_of_resolveComps 40 [] p0 p (cleanPath_nil look) h
  have := @resolveComps_of_clean look 40 p [] (by simpa using hclean)
  simpa [pyResolve] using this

/-- A small demonstration filesystem: the allowed directory holding one
text file. -/
def fsDemo : FS := ⟨[(ALLOWED_DIRECTORY, Entry.dir),
  (ALLOWED_DIRECTORY ++ ["notes.txt"], Entry.file (FileData.text "hello"))]⟩

/-- C1: for every caller-supplied string whose canonicalized
(symlink- and dot-segment-resolved) path is not equal to or below the
allowed root, read_file_tool answers exactly the access-denied message and
never file content; the containment comparison runs on the canonicalized
path, after resolution, which is what makes the second resolution inside
is_path_allowed a no-op (pyResolve_idem). -/
theorem c1_read_file_denies_outside (fs : FS) (s : String) (p : FsPath)
    (h1 : pyResolve fs.look (joinToRoot s) = Except.ok p)
    (h2 : isRelTo p ALLOWED_DIRECTORY = false) :
    read_file_tool fs s = Except.ok deniedMsg := by
  unfold read_file_tool read_file_body is_path_allowed
  rw [h1]
  simp only [pyResolve_idem h1, h2]
  simp

/-- Witness for C1: a dot-dot traversal string resolves outside the root
and is denied. -/
theorem c1_witness :
    pyResolve fsDemo.look (joinToRoot "../etc/passwd") =
      Except.ok (ALLOWED_DIRECTORY.dropLast ++ ["etc", "passwd"]) ∧
    isRelTo (ALLOWED_DIRECTORY.dropLast ++ ["etc", "passwd"]) ALLOWED_DIRECTORY = false ∧
    read_file_tool fsDemo "../etc/passwd" = Except.ok deniedMsg :=
  ⟨by rfl, by decide,
    c1_read_file_denies_outside fsDemo "../etc/passwd" _ (by rfl) (by decide)⟩

/-- C3: each of the four tools is total: whatever the filesystem and the
string arguments, the result is a returned string (Except.ok), never an
exception escaping to the caller: the handler chains end in a catch-all. -/
theorem c3_tools_total :
    (∀ (fs : FS) (s : String), (read_file_tool fs s).isOk = true) ∧
    (∀ (fs : FS) (sub pat : String),
      (list_files_in_directory_tool fs sub pat).isOk = true) ∧
    (∀ (fs : FS) (sub pat : String),
      (read_multiple_files_tool fs sub pat).isOk = true) ∧
    (∀ (fs : FS) (term pat : String),
      (search_file_content_tool fs term pat).isOk = true) := by
  refine ⟨fun fs s => ?_, fun fs sub pat => ?_, fun fs sub pat => ?_,
    fun fs term pat => ?_⟩
  · unfold read_file_tool
    cases read_file_body fs s <;> rfl
  · unfold list_files_in_directory_tool
    cases list_files_body fs sub pat <;> rfl
  · unfold read_multiple_files_tool
    cases read_multiple_files_body fs sub pat <;> rfl
  · unfold search_file_content_tool
    cases search_file_content_body fs term pat <;> rfl

/-- The Python substring test is membership as an infix list. -/
theorem charsIn_iff (n h : List Char) : charsIn n h = true ↔ n <:+: h := by
  induction h with
  | nil =>
    simp [charsIn, List.isPrefixOf_iff_prefix]
  | cons c t ih =>
    simp [charsIn, List.isPrefixOf_iff_prefix, ih, List.infix_cons_iff]

/-- The three-line search fixture of the specification, plus a second file
with no hit, to show files without hits are left out. -/
def fs4 : FS := ⟨[(ALLOWED_DIRECTORY, Entry.dir),
  (ALLOWED_DIRECTORY ++ ["doc.txt"], Entry.file (FileData.text "Alpha\nbeta ALPHA\ngamma")),
  (ALLOWED_DIRECTORY ++ ["other.txt"], Entry.file (FileData.text "nothing here"))]⟩

/-- C4: a search hit is recorded exactly when the search term occurs as a
case-insensitive substring of the line; on a file with lines Alpha,
beta ALPHA, gamma, searching alpha reports that file with hits on the
1-indexed lines 1 and 2, omits line 3, and the hitless second file does
not appear at all. -/
theorem c4_search_semantics :
    (∀ term line : String, searchHit term line = true ↔
      (term.data.map Char.toLower) <:+: (line.data.map Char.toLower)) ∧
    search_file_content_tool fs4 "alpha" "*" =
      Except.ok "Found 'alpha' in 1 file(s):\n\n doc.txt:\n  Line 1: Alpha\n  Line 2: beta ALPHA" :=
  ⟨fun term line => charsIn_iff _ _, by rfl⟩

/-- C10: the empty identifier resolves to the allowed root itself, which
passes the containment check (equality with the root is allowed); the root
being a directory, the tool answers the is-not-a-file message, neither a
denial nor content. -/
theorem c10_empty_input_hits_root (fs : FS)
    (hroot : pyResolve fs.look ALLOWED_DIRECTORY = Except.ok ALLOWED_DIRECTORY)
    (hdir : fs.look ALLOWED_DIRECTORY = some Entry.dir) :
    read_file_tool fs "" = Except.ok "Error: 'ieee_txt_files' is not a file." ∧
    is_path_allowed fs.look ALLOWED_DIRECTORY = (true, "") := by
  have hj : joinToRoot "" = ALLOWED_DIRECTORY := by rfl
  have hallow : is_path_allowed fs.look ALLOWED_DIRECTORY = (true, "") := by
    unfold is_path_allowed
    rw [hroot]
    simp [show isRelTo ALLOWED_DIRECTORY ALLOWED_DIRECTORY = true from by decide]
  refine ⟨?_, hallow⟩
  unfold read_file_tool read_file_body
  rw [hj, hroot]
  simp only [hallow]
  simp [existsAt, isFileAt, statAt, pyResolve] at *
  rw [hroot] at *
  simp [hdir]
  rfl

/-- Witness for C10 on the demonstration filesystem. -/
theorem c10_witness :
    pyResolve fsDemo.look ALLOWED_DIRECTORY = Except.ok ALLOWED_DIRECTORY ∧
    fsDemo.look ALLOWED_DIRECTORY = some Entry.dir ∧
    read_file_tool fsDemo "" = Except.ok "Error: 'ieee_txt_files' is not a file." :=
  ⟨by rfl, by rfl, (c10_empty_input_hits_root fsDemo (by rfl) (by rfl)).1⟩

theorem nameOf_concat (p : FsPath) (n : String) : nameOf (p ++ [n]) = n := by
  unfold nameOf
  simp

/-- C6: empty results and failures are told apart: a pattern matching
nothing in the existing, non-empty, in-bounds root directory answers the
no-files message (neither Denied nor NotFound), while a non-existent
in-bounds subdirectory answers the does-not-exist message. -/
theorem c6_empty_vs_notfound (fs : FS)
    (hroot : pyResolve fs.look ALLOWED_DIRECTORY = Except.ok ALLOWED_DIRECTORY)
    (hdir : fs.look ALLOWED_DIRECTORY = some Entry.dir)
    (hnonempty : ∃ n, isFileAt fs.look (ALLOWED_DIRECTORY ++ [n]) = true)
    (hnomatch : ∀ e ∈ fs.entries, fnmatch "*.nonexistent_ext" (nameOf e.1) = false)
    (hmiss : fs.look (ALLOWED_DIRECTORY ++ ["missing_subdir"]) = none) :
    list_files_in_directory_tool fs "" "*.nonexistent_ext" =
      Except.ok "No files found matching pattern '*.nonexistent_ext' in the specified directory." ∧
    list_files_in_directory_tool fs "missing_subdir" "*" =
      Except.ok "Error: Subdirectory 'missing_subdir' does not exist in the allowed directory." := by
  have hallow : is_path_allowed fs.look ALLOWED_DIRECTORY = (true, "") := by
    unfold is_path_allowed
    rw [hroot]
    simp [show isRelTo ALLOWED_DIRECTORY ALLOWED_DIRECTORY = true from by decide]
  have hexists : existsAt fs.look ALLOWED_DIRECTORY = true := by
    unfold existsAt statAt
    rw [hroot]
    simp [hdir]
  have hisdir : isDirAt fs.look ALLOWED_DIRECTORY = true := by
    unfold isDirAt statAt
    rw [hroot]
    simp [hdir]
  constructor
  · have htarget : targetDir fs "" = Except.ok ALLOWED_DIRECTORY := by
      unfold targetDir
      rw [if_pos rfl]
    have hglob : globOp fs ALLOWED_DIRECTORY "*.nonexistent_ext" =
        Except.ok (childMatches fs.entries ALLOWED_DIRECTORY "*.nonexistent_ext") := by
      unfold globOp
      rw [if_neg (by decide), if_neg (by decide)]
      rw [show globParts "*.nonexistent_ext" = ["*.nonexistent_ext"] from rfl]
      rw [globSelect, if_neg (by decide), globSelect]
      simp
    have hchildren : childMatches fs.entries ALLOWED_DIRECTORY "*.nonexistent_ext" = [] := by
      unfold childMatches
      rw [List.filterMap_eq_nil]
      intro e he
      match hd : dropPref ALLOWED_DIRECTORY e.1 with
      | none => simp [hd]
      | some [] => simp [hd]
      | some (n :: m :: r) => simp [hd]
      | some [n] =>
        have he1 : e.1 = ALLOWED_DIRECTORY ++ [n] := dropPref_eq_some.mp hd
        have := hnomatch e he
        rw [he1, nameOf_concat] at this
        simp [hd, this]
    unfold list_files_in_directory_tool list_files_body
    rw [htarget]
    simp only [hallow, hexists, hisdir, hglob, hchildren]
    unfold list_files_fmt
    simp
  · have hclean : CleanPath fs.look ALLOWED_DIRECTORY :=
      cleanPath_of_resolveComps 40 [] ALLOWED_DIRECTORY ALLOWED_DIRECTORY
        (cleanPath_nil fs.look) hroot
    have hcleanms : CleanPath fs.look (ALLOWED_DIRECTORY ++ ["missing_subdir"]) := by
      refine cleanPath_append_one hclean (by decide) ?_
      intro t ht
      rw [hmiss] at ht
      cases ht
    have hres : pyResolve fs.look (joinToRoot "missing_subdir") =
        Except.ok (ALLOWED_DIRECTORY ++ ["missing_subdir"]) := by
      have hj : joinToRoot "missing_subdir" = ALLOWED_DIRECTORY ++ ["missing_subdir"] := by
        rfl
      rw [hj]
      exact resolveComps_of_clean (by simpa using hcleanms)
    have htarget : targetDir fs "missing_subdir" =
        Except.ok (ALLOWED_DIRECTORY ++ ["missing_subdir"]) := by
      unfold targetDir
      rw [if_neg (by decide)]
      exact hres
    have hallowms : is_path_allowed fs.look (ALLOWED_DIRECTORY ++ ["missing_subdir"]) =
        (true, "") := by
      unfold is_path_allowed
      rw [pyResolve_idem hres]
      have hrel : isRelTo (ALLOWED_DIRECTORY ++ ["missing_subdir"]) ALLOWED_DIRECTORY = true := by
        unfold isRelTo
        rw [dropPref_eq_some.mpr rfl]
        rfl
      simp [hrel]
    have hnoexist : existsAt fs.look (ALLOWED_DIRECTORY ++ ["missing_subdir"]) = false := by
      unfold existsAt statAt
      rw [pyResolve_idem hres]
      simp [hmiss]
    unfold list_files_in_directory_tool list_files_body
    rw [htarget]
    simp only [hallowms, hnoexist]
    simp

/-- Witness for C6 on the demonstration filesystem. -/
theorem c6_witness :
    (∃ n, isFileAt fsDemo.look (ALLOWED_DIRECTORY ++ [n]) = true) ∧
    list_files_in_directory_tool fsDemo "" "*.nonexistent_ext" =
      Except.ok "No files found matching pattern '*.nonexistent_ext' in the specified directory." ∧
    list_files_in_directory_tool fsDemo "missing_subdir" "*" =
      Except.ok "Error: Subdirectory 'missing_subdir' does not exist in the allowed directory." :=
  ⟨⟨"notes.txt", by rfl⟩,
    c6_empty_vs_notfound fsDemo (by rfl) (by rfl) ⟨"notes.txt", by rfl⟩
      (by decide) (by rfl)⟩

/-- A directory with one decodable text file and one binary file, both
matching every pattern; the content of the text file and the size of the
binary one are arbitrary. -/
def fs7 (c : String) (n : Nat) : FS := ⟨[(ALLOWED_DIRECTORY, Entry.dir),
  (ALLOWED_DIRECTORY ++ ["a.txt"], Entry.file (FileData.text c)),
  (ALLOWED_DIRECTORY ++ ["b.bin"], Entry.file (FileData.binary n))]⟩

/-- C7: over a directory holding one valid UTF-8 file and one undecodable
binary file, both matching the pattern, read_multiple_files_tool returns
the full content of the text file and the inline binary placeholder for the
other, for every content and size: the per-file decode failure never aborts
the batch into an overall failure. -/
theorem c7_partial_failure (c : String) (n : Nat) :
    read_multiple_files_tool (fs7 c n) "" "*" = Except.ok
      (String.join ["Reading 2 file(s) from 'ieee_txt_files':\n",
        "\n" ++ eqBanner ++ "\nFile: a.txt\n" ++ eqBanner ++ "\n" ++ c ++ "\n",
        "\n" ++ eqBanner ++ "\nFile: b.bin\n" ++ eqBanner ++
          "\n[Binary file - cannot display as text]\n"]) := by
  have h1 : read_multiple_files_body (fs7 c n) "" "*" =
      read_multiple_fmt (fs7 c n).look "*" ALLOWED_DIRECTORY
        [ALLOWED_DIRECTORY ++ ["a.txt"], ALLOWED_DIRECTORY ++ ["b.bin"]] := rfl
  have h2 : read_multiple_fmt (fs7 c n).look "*" ALLOWED_DIRECTORY
      [ALLOWED_DIRECTORY ++ ["a.txt"], ALLOWED_DIRECTORY ++ ["b.bin"]] = Except.ok
      (String.join ["Reading 2 file(s) from 'ieee_txt_files':\n",
        "\n" ++ eqBanner ++ "\nFile: a.txt\n" ++ eqBanner ++ "\n" ++ c ++ "\n",
        "\n" ++ eqBanner ++ "\nFile: b.bin\n" ++ eqBanner ++
          "\n[Binary file - cannot display as text]\n"]) := by
    unfold read_multiple_fmt
    rw [show (List.filter (fun f => isFileAt (fs7 c n).look f)
        [ALLOWED_DIRECTORY ++ ["a.txt"], ALLOWED_DIRECTORY ++ ["b.bin"]]) =
        [ALLOWED_DIRECTORY ++ ["a.txt"], ALLOWED_DIRECTORY ++ ["b.bin"]] from rfl]
    rfl
  unfold read_multiple_files_tool
  rw [h1, h2]

/-- A filesystem with a symbolic link inside the allowed directory whose
target lies outside it. -/
def fsEscape : FS := ⟨[(ALLOWED_DIRECTORY, Entry.dir),
  (ALLOWED_DIRECTORY ++ ["leak.txt"], Entry.symlink "/etc/secret.txt"),
  (["etc"], Entry.dir),
  (["etc", "secret.txt"], Entry.file (FileData.text "TOPSECRET"))]⟩

/-- C2 fails on the code: the glob enumerations never re-validate the
resolved path of each matched entry, so a symlink inside the allowed root
pointing outside it is listed with the outside file's size and its outside
content is read and returned, although its canonicalized path is not under
the allowed root. This exhibits the escape concretely. -/
theorem c2_symlink_escape_found :
    pyResolve fsEscape.look (ALLOWED_DIRECTORY ++ ["leak.txt"]) =
      Except.ok ["etc", "secret.txt"] ∧
    isRelTo ["etc", "secret.txt"] ALLOWED_DIRECTORY = false ∧
    read_multiple_files_tool fsEscape "" "*" = Except.ok
      (String.join ["Reading 1 file(s) from 'ieee_txt_files':\n",
        "\n" ++ eqBanner ++ "\nFile: leak.txt\n" ++ eqBanner ++ "\nTOPSECRET\n"]) ∧
    list_files_in_directory_tool fsEscape "" "*" = Except.ok
      "Files in 'ieee_txt_files' matching '*':\n  - leak.txt (9 bytes)\n\nTotal: 1 file(s)" :=
  ⟨by rfl, by decide, by rfl, by rfl⟩

/-- A nested layout: the only text file sits one directory below the
allowed root. -/
def fsNested : FS := ⟨[(ALLOWED_DIRECTORY, Entry.dir),
  (ALLOWED_DIRECTORY ++ ["sub"], Entry.dir),
  (ALLOWED_DIRECTORY ++ ["sub", "deep.txt"], Entry.file (FileData.text "has needle inside"))]⟩

/-- C9: the two listing tools match a single-component pattern only against
the direct children of the target directory (any path their glob yields is
the target plus one name), while search always scans recursively over the
whole allowed root with no subdirectory parameter: the nested file is found
by search but invisible to a root-scoped listing of the same pattern. -/
theorem c9_glob_scoping :
    (∀ (fs : FS) (dir : FsPath) (pat part : String) (m : List FsPath) (p : FsPath),
      globParts pat = [part] → part ≠ "**" → globOp fs dir pat = Except.ok m →
      p ∈ m → ∃ n, p = dir ++ [n]) ∧
    search_file_content_tool fsNested "needle" "*.txt" =
      Except.ok "Found 'needle' in 1 file(s):\n\n deep.txt:\n  Line 1: has needle inside" ∧
    list_files_in_directory_tool fsNested "" "*.txt" =
      Except.ok "No files found matching pattern '*.txt' in the specified directory." := by
  refine ⟨?_, by rfl, by rfl⟩
  intro fs dir pat part m p hparts hss hglob hp
  unfold globOp at hglob
  split at hglob
  · cases hglob
  · split at hglob
    · cases hglob
    · cases hglob
      rw [hparts] at hp
      rw [globSelect, if_neg hss, globSelect] at hp
      simp only [List.flatMap_cons, List.flatMap_nil, List.append_nil] at hp
      unfold childMatches at hp
      rw [List.mem_filterMap] at hp
      obtain ⟨e, he, hme⟩ := hp
      revert hme
      match hd : dropPref dir e.1 with
      | none => intro hme; simp at hme
      | some [] => intro hme; simp at hme
      | some (n :: m' :: r) => intro hme; simp at hme
      | some [n] =>
        intro hme
        have he1 : e.1 = dir ++ [n] := dropPref_eq_some.mp hd
        simp only [Option.ite_none_right_eq_some, Option.some.injEq] at hme
        exact ⟨n, by rw [← hme.2, he1]⟩

/-- Witness for C9: the star pattern over the demonstration filesystem
yields only a direct child of the root. -/
theorem c9_witness :
    globParts "*" = ["*"] ∧
    globOp fsDemo ALLOWED_DIRECTORY "*" =
      Except.ok [ALLOWED_DIRECTORY ++ ["notes.txt"]] ∧
    (∃ n, ALLOWED_DIRECTORY ++ ["notes.txt"] = ALLOWED_DIRECTORY ++ [n]) :=
  ⟨by rfl, by rfl,
    c9_glob_scoping.1 fsDemo ALLOWED_DIRECTORY "*" "*"
      [ALLOWED_DIRECTORY ++ ["notes.txt"]] (ALLOWED_DIRECTORY ++ ["notes.txt"])
      (by rfl) (by decide) (by rfl) (by simp)⟩
theorem mem_sufs : ∀ {cs t : List Char}, t ∈ sufs cs ↔ t <:+ cs := by
  intro cs
  induction cs with
  | nil => intro t; simp [sufs]
  | cons c cs ih =>
    intro t
    simp only [sufs, List.mem_cons, ih, List.suffix_cons_iff]

/-- A pattern of literal tokens matches exactly itself. -/
theorem tokMatch_lits : ∀ (ls cs : List Char),
    tokMatch (ls.map GlobTok.lit) cs = true ↔ ls = cs := by
  intro ls
  induction ls with
  | nil =>
    intro cs
    cases cs <;> simp [tokMatch]
  | cons l ls ih =>
    intro cs
    cases cs with
    | nil => simp [tokMatch]
    | cons c cs' => simp [tokMatch, ih]

/-- The star-dot-md pattern matches exactly the names with the .md
ending. -/
theorem fnmatch_ext_md (n : String) :
    fnmatch "*.md" n = true ↔ ∃ stem, n = stem ++ ".md" := by
  unfold fnmatch
  rw [show globToks "*.md".data =
    GlobTok.star :: (['.', 'm', 'd'].map GlobTok.lit) from rfl]
  rw [show tokMatch (GlobTok.star :: (['.', 'm', 'd'].map GlobTok.lit)) n.data =
    (sufs n.data).any (fun t => tokMatch (['.', 'm', 'd'].map GlobTok.lit) t) from rfl]
  rw [List.any_eq_true]
  constructor
  · rintro ⟨t, ht, hm⟩
    rw [tokMatch_lits] at hm
    rw [mem_sufs] at ht
    rw [← hm] at ht
    obtain ⟨pre, hpre⟩ := ht
    refine ⟨String.mk pre, ?_⟩
    apply String.ext
    rw [String.data_append]
    rw [show (String.mk pre).data = pre from rfl,
      show (".md" : String).data = ['.', 'm', 'd'] from rfl]
    exact hpre.symm
  · rintro ⟨stem, hstem⟩
    refine ⟨['.', 'm', 'd'], ?_, by rw [tokMatch_lits]⟩
    rw [mem_sufs]
    refine ⟨stem.data, ?_⟩
    rw [hstem, String.data_append]

/-- The character comparison agrees with lexicographic order. -/
theorem charsLt_iff_lex : ∀ {a b : List Char},
    charsLt a b = true ↔ List.Lex (fun x y => x < y) a b := by
  intro a
  induction a with
  | nil =>
    intro b
    cases b with
    | nil =>
      simp only [charsLt]
      constructor
      · intro h; cases h
      · intro h; cases h
    | cons y ys =>
      simp only [charsLt]
      constructor
      · intro _; exact List.Lex.nil
      · intro _; trivial
  | cons x xs ih =>
    intro b
    cases b with
    | nil =>
      simp only [charsLt]
      constructor
      · intro h; cases h
      · intro h; cases h
    | cons y ys =>
      simp only [charsLt]
      by_cases hxy : x = y
      · subst hxy
        rw [if_pos rfl, ih]
        constructor
        · exact fun h => List.Lex.cons h
        · intro h
          cases h with
          | cons h => exact h
          | rel h => exact absurd h (lt_irrefl x)
      · rw [if_neg hxy]
        constructor
        · intro h; exact List.Lex.rel (of_decide_eq_true h)
        · intro h
          cases h with
          | cons h => exact absurd rfl hxy
          | rel h => exact decide_eq_true h

/-- The spelled-out string comparison is the string order. -/
theorem strLt_iff_lt {a b : String} : strLt a b = true ↔ a < b := by
  rw [String.lt_iff_toList_lt]
  have h2 : a.toList < b.toList ↔ List.Lex (fun x y => x < y) a.data b.data := by
    simp only [LT.lt, String.toList, List.instLT]
  rw [h2]
  exact charsLt_iff_lex

/-- The path order ignores a common leading run. -/
theorem pathLeB_append_left : ∀ (xs p q : FsPath),
    pathLeB (xs ++ p) (xs ++ q) = pathLeB p q := by
  intro xs
  induction xs with
  | nil => intro p q; rfl
  | cons a as ih =>
    intro p q
    simp only [List.cons_append, pathLeB, if_pos rfl]
    exact ih p q

/-- Between two children of the allowed root, the path order is the name
order. -/
theorem nameLe_of_pathLe {n m : String}
    (h : PathLe (ALLOWED_DIRECTORY ++ [n]) (ALLOWED_DIRECTORY ++ [m])) : n ≤ m := by
  unfold PathLe at h
  rw [pathLeB_append_left] at h
  simp only [pathLeB] at h
  by_cases hnm : n = m
  · exact le_of_eq hnm
  · rw [if_neg hnm] at h
    exact le_of_lt (strLt_iff_lt.mp h)

/-- What the listing computes for the star-dot-md pattern over the root:
the matching children that pass the is-file test. -/
def mdTopMatches (fs : FS) : List FsPath :=
  (childMatches fs.entries ALLOWED_DIRECTORY "*.md").filter (fun f => isFileAt fs.look f)

/-- C5: listing the root with the star-dot-md pattern reports exactly the
direct child entries whose name ends in .md and that are regular files
(following symlinks, as is_file does), renders each with its stat byte size,
in ascending name order, and closes with the total count. -/
theorem c5_list_md_pattern (fs : FS)
    (hroot : pyResolve fs.look ALLOWED_DIRECTORY = Except.ok ALLOWED_DIRECTORY)
    (hdir : fs.look ALLOWED_DIRECTORY = some Entry.dir)
    (hne : mdTopMatches fs ≠ []) :
    (∀ p, p ∈ mdTopMatches fs ↔
      ((∃ e ∈ fs.entries, e.1 = p) ∧
        (∃ n stem, p = ALLOWED_DIRECTORY ++ [n] ∧ n = stem ++ ".md") ∧
        isFileAt fs.look p = true)) ∧
    list_files_in_directory_tool fs "" "*.md" = Except.ok
      ("Files in '" ++ "ieee_txt_files" ++ "' matching '" ++ "*.md" ++ "':\n" ++
        String.intercalate "\n" ((sortPaths (mdTopMatches fs)).map (fun f =>
          "  - " ++ nameOf f ++ " (" ++ toString (sizeAt fs.look f) ++ " bytes)")) ++
        "\n\nTotal: " ++ toString (mdTopMatches fs).length ++ " file(s)") ∧
    List.Sorted (fun a b => a ≤ b) ((sortPaths (mdTopMatches fs)).map nameOf) := by
  have hchar : ∀ p, p ∈ mdTopMatches fs ↔
      ((∃ e ∈ fs.entries, e.1 = p) ∧
        (∃ n stem, p = ALLOWED_DIRECTORY ++ [n] ∧ n = stem ++ ".md") ∧
        isFileAt fs.look p = true) := by
    intro p
    unfold mdTopMatches
    rw [List.mem_filter]
    unfold childMatches
    rw [List.mem_filterMap]
    constructor
    · rintro ⟨⟨e, he, hme⟩, hfile⟩
      revert hme
      match hd : dropPref ALLOWED_DIRECTORY e.1 with
      | none => intro hme; simp at hme
      | some [] => intro hme; simp at hme
      | some (n :: m' :: r) => intro hme; simp at hme
      | some [n] =>
        intro hme
        simp only [Option.ite_none_right_eq_some, Option.some.injEq] at hme
        obtain ⟨hfn, hep⟩ := hme
        have he1 : e.1 = ALLOWED_DIRECTORY ++ [n] := dropPref_eq_some.mp hd
        obtain ⟨stem, hstem⟩ := (fnmatch_ext_md n).mp hfn
        exact ⟨⟨e, he, hep⟩, ⟨n, stem, by rw [← hep, he1], hstem⟩, hfile⟩
    · rintro ⟨⟨e, he, hep⟩, ⟨n, stem, hpn, hstem⟩, hfile⟩
      refine ⟨⟨e, he, ?_⟩, hfile⟩
      have hd : dropPref ALLOWED_DIRECTORY e.1 = some [n] := by
        rw [dropPref_eq_some, hep, hpn]
      have hfn : fnmatch "*.md" n = true := (fnmatch_ext_md n).mpr ⟨stem, hstem⟩
      simp only [hd, hfn, if_true]
      simp [hep]
  refine ⟨hchar, ?_, ?_⟩
  · have hallow : is_path_allowed fs.look ALLOWED_DIRECTORY = (true, "") := by
      unfold is_path_allowed
      rw [hroot]
      simp [show isRelTo ALLOWED_DIRECTORY ALLOWED_DIRECTORY = true from by decide]
    have hexists : existsAt fs.look ALLOWED_DIRECTORY = true := by
      unfold existsAt statAt
      rw [hroot]
      simp [hdir]
    have hisdir : isDirAt fs.look ALLOWED_DIRECTORY = true := by
      unfold isDirAt statAt
      rw [hroot]
      simp [hdir]
    have htarget : targetDir fs "" = Except.ok ALLOWED_DIRECTORY := by
      unfold targetDir
      rw [if_pos rfl]
    have hglob : globOp fs ALLOWED_DIRECTORY "*.md" =
        Except.ok (childMatches fs.entries ALLOWED_DIRECTORY "*.md") := by
      unfold globOp
      rw [if_neg (by decide), if_neg (by decide)]
      rw [show globParts "*.md" = ["*.md"] from rfl]
      rw [globSelect, if_neg (by decide), globSelect]
      simp
    have hlen : ¬(mdTopMatches fs).length = 0 := by
      intro h0
      exact hne (List.length_eq_zero.mp h0)
    unfold list_files_in_directory_tool list_files_body
    rw [htarget]
    simp only [hallow, hexists, hisdir, hglob, Bool.not_true, Bool.not_false]
    unfold list_files_fmt
    rw [if_neg (show ¬((childMatches fs.entries ALLOWED_DIRECTORY "*.md").filter
      (fun f => isFileAt fs.look f)).length = 0 from hlen)]
    rw [show relativeTo ALLOWED_DIRECTORY ALLOWED_DIRECTORY.dropLast =
      Except.ok "ieee_txt_files" from rfl]
    rfl
  · have hsorted := List.sorted_insertionSort PathLe (mdTopMatches fs)
    refine List.pairwise_map.mpr ?_
    refine List.Pairwise.imp_of_mem ?_ hsorted
    intro a b ha hb hab
    have hmem : ∀ x, x ∈ sortPaths (mdTopMatches fs) → x ∈ mdTopMatches fs :=
      fun x hx => (List.perm_insertionSort PathLe (mdTopMatches fs)).mem_iff.mp hx
    obtain ⟨-, ⟨na, sa, hpa, -⟩, -⟩ := (hchar a).mp (hmem a ha)
    obtain ⟨-, ⟨nb, sb, hpb, -⟩, -⟩ := (hchar b).mp (hmem b hb)
    subst hpa
    subst hpb
    rw [nameOf_concat, nameOf_concat]
    exact nameLe_of_pathLe hab

/-- Two markdown files, listed out of name order in the table, plus one
non-matching file. -/
def fsMd : FS := ⟨[(ALLOWED_DIRECTORY, Entry.dir),
  (ALLOWED_DIRECTORY ++ ["b.md"], Entry.file (FileData.text "bb")),
  (ALLOWED_DIRECTORY ++ ["a.md"], Entry.file (FileData.text "a")),
  (ALLOWED_DIRECTORY ++ ["notes.txt"], Entry.file (FileData.text "hello"))]⟩

/-- Witness for C5: on the concrete table the listing sorts the two
markdown files by name, annotates their exact byte sizes, and skips the
text file. -/
theorem c5_witness :
    mdTopMatches fsMd ≠ [] ∧
    list_files_in_directory_tool fsMd "" "*.md" = Except.ok
      ("Files in '" ++ "ieee_txt_files" ++ "' matching '" ++ "*.md" ++ "':\n" ++
        String.intercalate "\n" ((sortPaths (mdTopMatches fsMd)).map (fun f =>
          "  - " ++ nameOf f ++ " (" ++ toString (sizeAt fsMd.look f) ++ " bytes)")) ++
        "\n\nTotal: " ++ toString (mdTopMatches fsMd).length ++ " file(s)") ∧
    list_files_in_directory_tool fsMd "" "*.md" = Except.ok
      "Files in 'ieee_txt_files' matching '*.md':\n  - a.md (1 bytes)\n  - b.md (2 bytes)\n\nTotal: 2 file(s)" :=
  ⟨by decide, ((c5_list_md_pattern fsMd (by rfl) (by rfl) (by decide)).2).1, by rfl⟩
theorem find?_key_eq_some {l : List (FsPath × Entry)} {p : FsPath} {e : FsPath × Entry}
    (hnd : (l.map Prod.fst).Nodup) :
    l.find? (fun x => x.1 == p) = some e ↔ e ∈ l ∧ e.1 = p := by
  induction l with
  | nil => simp
  | cons h t ih =>
    simp only [List.map_cons, List.nodup_cons] at hnd
    by_cases hk : h.1 = p
    · rw [List.find?_cons_of_pos _ (by simpa using hk)]
      constructor
      · rintro he
        injection he with he2
        subst he2
        exact ⟨List.mem_cons_self _ _, hk⟩
      · rintro ⟨hmem, hep⟩
        rcases List.mem_cons.mp hmem with rfl | hmt
        · rfl
        · exfalso
          apply hnd.1
          have hkey : e.1 = h.1 := by rw [hep, hk]
          rw [← hkey]
          exact List.mem_map_of_mem Prod.fst hmt
    · rw [List.find?_cons_of_neg _ (by simpa using hk)]
      rw [ih hnd.2]
      constructor
      · rintro ⟨hmem, hep⟩
        exact ⟨List.mem_cons_of_mem h hmem, hep⟩
      · rintro ⟨hmem, hep⟩
        rcases List.mem_cons.mp hmem with rfl | hmt
        · exact absurd hep hk
        · exact ⟨hmt, hep⟩

/-- Table lookup does not depend on entry order when keys are distinct. -/
theorem lookupEntry_perm {l1 l2 : List (FsPath × Entry)} (hp : l1.Perm l2)
    (hnd : (l1.map Prod.fst).Nodup) (p : FsPath) :
    lookupEntry l1 p = lookupEntry l2 p := by
  have hnd2 : (l2.map Prod.fst).Nodup := ((hp.map Prod.fst).nodup_iff).mp hnd
  unfold lookupEntry
  match hf : l1.find? (fun x => x.1 == p) with
  | some e =>
    have hc := (find?_key_eq_some hnd).mp hf
    rw [hf, (find?_key_eq_some hnd2).mpr ⟨hp.mem_iff.mp hc.1, hc.2⟩]
  | none =>
    have hf2 := List.find?_eq_none.mp hf
    rw [hf, List.find?_eq_none.mpr (fun x hx => hf2 x (hp.mem_iff.mpr hx))]

/-- The lookup functions of two reordered tables coincide. -/
theorem look_eq_of_perm {fs1 fs2 : FS} (hp : fs1.entries.Perm fs2.entries)
    (hnd : (fs1.entries.map Prod.fst).Nodup) : fs1.look = fs2.look := by
  funext p
  exact lookupEntry_perm hp hnd p

/-- A scan of the children follows the entry order, up to permutation. -/
theorem childMatches_perm {l1 l2 : List (FsPath × Entry)} (hp : l1.Perm l2)
    (dir : FsPath) (part : String) :
    (childMatches l1 dir part).Perm (childMatches l2 dir part) :=
  hp.filterMap _

/-- The descendant-directory scan follows the entry order, up to
permutation. -/
theorem descendantDirs_perm {l1 l2 : List (FsPath × Entry)} (hp : l1.Perm l2)
    (dir : FsPath) :
    (descendantDirs l1 dir).Perm (descendantDirs l2 dir) :=
  (hp.filterMap _).cons dir

/-- The glob selector chain is permutation-congruent in both the entry
table and the candidate set. -/
theorem globSelect_perm {l1 l2 : List (FsPath × Entry)} (hp : l1.Perm l2) :
    ∀ (parts : List String) (dirs1 dirs2 : List FsPath), dirs1.Perm dirs2 →
      (globSelect l1 dirs1 parts).Perm (globSelect l2 dirs2 parts) := by
  intro parts
  induction parts with
  | nil =>
    intro dirs1 dirs2 hd
    rw [globSelect, globSelect]
    exact hd
  | cons part rest ih =>
    intro dirs1 dirs2 hd
    rw [globSelect, globSelect]
    by_cases hss : part = "**"
    · rw [if_pos hss, if_pos hss]
      refine ih _ _ ?_
      refine List.Perm.trans (List.Perm.flatMap_right _ hd) ?_
      exact List.Perm.flatMap_left _ (fun a _ => descendantDirs_perm hp a)
    · rw [if_neg hss, if_neg hss]
      refine ih _ _ ?_
      refine List.Perm.trans (List.Perm.flatMap_right _ hd) ?_
      exact List.Perm.flatMap_left _ (fun a _ => childMatches_perm hp a part)

/-- Sorting erases enumeration order: permuted inputs sort identically
(the path order is antisymmetric). -/
theorem sortPaths_eq_of_perm {m1 m2 : List FsPath} (hp : m1.Perm m2) :
    sortPaths m1 = sortPaths m2 := by
  unfold sortPaths
  refine List.eq_of_perm_of_sorted ?_ (List.sorted_insertionSort PathLe m1)
    (List.sorted_insertionSort PathLe m2)
  exact (List.perm_insertionSort PathLe m1).trans
    (hp.trans (List.perm_insertionSort PathLe m2).symm)

/-- The listing output depends on the matched set only through its size
and its sorted form. -/
theorem list_files_fmt_perm (look : FsPath → Option Entry) (sub pat : String)
    (target : FsPath) {m1 m2 : List FsPath} (hp : m1.Perm m2) :
    list_files_fmt look sub pat target m1 = list_files_fmt look sub pat target m2 := by
  unfold list_files_fmt
  have hf : (m1.filter (fun f => isFileAt look f)).Perm
      (m2.filter (fun f => isFileAt look f)) := hp.filter _
  simp only [hf.length_eq, sortPaths_eq_of_perm hf]

/-- The batch-read output depends on the matched set only through its size
and its sorted form. -/
theorem read_multiple_fmt_perm (look : FsPath → Option Entry) (pat : String)
    (target : FsPath) {m1 m2 : List FsPath} (hp : m1.Perm m2) :
    read_multiple_fmt look pat target m1 = read_multiple_fmt look pat target m2 := by
  unfold read_multiple_fmt
  have hf : (m1.filter (fun f => isFileAt look f)).Perm
      (m2.filter (fun f => isFileAt look f)) := hp.filter _
  simp only [hf.length_eq, sortPaths_eq_of_perm hf]

/-- The search output depends on the matched set only through its size and
its sorted form. -/
theorem search_fmt_perm (look : FsPath → Option Entry) (term pat : String)
    {m1 m2 : List FsPath} (hp : m1.Perm m2) :
    search_fmt look term pat m1 = search_fmt look term pat m2 := by
  unfold search_fmt
  have hf : (m1.filter (fun f => isFileAt look f)).Perm
      (m2.filter (fun f => isFileAt look f)) := hp.filter _
  simp only [hf.length_eq, sortPaths_eq_of_perm hf]

/-- Path.glob fails identically or succeeds with permuted results over
reordered tables. -/
theorem globOp_perm_cases {fs1 fs2 : FS} (hp : fs1.entries.Perm fs2.entries)
    (dir : FsPath) (pat : String) :
    (∃ e, globOp fs1 dir pat = Except.error e ∧ globOp fs2 dir pat = Except.error e) ∨
    (∃ m1 m2, globOp fs1 dir pat = Except.ok m1 ∧ globOp fs2 dir pat = Except.ok m2 ∧
      m1.Perm m2) := by
  unfold globOp
  by_cases h0 : pat = ""
  · rw [if_pos h0, if_pos h0]
    exact Or.inl ⟨_, rfl, rfl⟩
  · rw [if_neg h0, if_neg h0]
    by_cases habs : pyIsAbsolute pat = true
    · rw [if_pos habs, if_pos habs]
      exact Or.inl ⟨_, rfl, rfl⟩
    · rw [if_neg habs, if_neg habs]
      exact Or.inr ⟨_, _, rfl, rfl, globSelect_perm hp _ _ _ (List.Perm.refl _)⟩

/-- Path.rglob fails identically or succeeds with permuted results over
reordered tables. -/
theorem rglobOp_perm_cases {fs1 fs2 : FS} (hp : fs1.entries.Perm fs2.entries)
    (pat : String) :
    (∃ e, rglobOp fs1 pat = Except.error e ∧ rglobOp fs2 pat = Except.error e) ∨
    (∃ m1 m2, rglobOp fs1 pat = Except.ok m1 ∧ rglobOp fs2 pat = Except.ok m2 ∧
      m1.Perm m2) := by
  unfold rglobOp
  by_cases habs : pyIsAbsolute pat = true
  · rw [if_pos habs, if_pos habs]
    exact Or.inl ⟨_, rfl, rfl⟩
  · rw [if_neg habs, if_neg habs]
    exact Or.inr ⟨_, _, rfl, rfl, globSelect_perm hp _ _ _ (List.Perm.refl _)⟩

/-- C8: every tool output is independent of the order in which the
filesystem enumerates its entries: over two tables that are permutations of
each other (with distinct paths, as on a real filesystem), all four tools
answer identical strings for all arguments. Determinism of a repeated call
with no intervening change is the special case of the identity permutation;
the displayed file order is fixed by the sort, not by enumeration. -/
theorem c8_order_independent (fs1 fs2 : FS) (hperm : fs1.entries.Perm fs2.entries)
    (hnd : (fs1.entries.map Prod.fst).Nodup) :
    (∀ s, read_file_tool fs1 s = read_file_tool fs2 s) ∧
    (∀ sub pat, list_files_in_directory_tool fs1 sub pat =
      list_files_in_directory_tool fs2 sub pat) ∧
    (∀ sub pat, read_multiple_files_tool fs1 sub pat =
      read_multiple_files_tool fs2 sub pat) ∧
    (∀ term pat, search_file_content_tool fs1 term pat =
      search_file_content_tool fs2 term pat) := by
  have hlook : fs1.look = fs2.look := look_eq_of_perm hperm hnd
  refine ⟨fun s => ?_, fun sub pat => ?_, fun sub pat => ?_, fun term pat => ?_⟩
  · unfold read_file_tool read_file_body
    rw [hlook]
  · unfold list_files_in_directory_tool list_files_body
    have ht : targetDir fs1 sub = targetDir fs2 sub := by
      unfold targetDir
      rw [hlook]
    rw [ht, hlook]
    cases htd : targetDir fs2 sub with
    | error e => rfl
    | ok target =>
      dsimp only
      rcases globOp_perm_cases hperm target pat with ⟨e, h1, h2⟩ | ⟨m1, m2, h1, h2, hpm⟩
      · rw [h1, h2]
      · rw [h1, h2]
        simp only [list_files_fmt_perm fs2.look sub pat target hpm]
  · unfold read_multiple_files_tool read_multiple_files_body
    have ht : targetDir fs1 sub = targetDir fs2 sub := by
      unfold targetDir
      rw [hlook]
    rw [ht, hlook]
    cases htd : targetDir fs2 sub with
    | error e => rfl
    | ok target =>
      dsimp only
      rcases globOp_perm_cases hperm target pat with ⟨e, h1, h2⟩ | ⟨m1, m2, h1, h2, hpm⟩
      · rw [h1, h2]
      · rw [h1, h2]
        simp only [read_multiple_fmt_perm fs2.look pat target hpm]
  · unfold search_file_content_tool search_file_content_body
    rcases rglobOp_perm_cases hperm pat with ⟨e, h1, h2⟩ | ⟨m1, m2, h1, h2, hpm⟩
    · rw [h1, h2]
    · rw [h1, h2, hlook]
      simp only [search_fmt_perm fs2.look term pat hpm]

/-- The markdown fixture with its two markdown entries swapped. -/
def fsMdSwapped : FS := ⟨[(ALLOWED_DIRECTORY, Entry.dir),
  (ALLOWED_DIRECTORY ++ ["a.md"], Entry.file (FileData.text "a")),
  (ALLOWED_DIRECTORY ++ ["b.md"], Entry.file (FileData.text "bb")),
  (ALLOWED_DIRECTORY ++ ["notes.txt"], Entry.file (FileData.text "hello"))]⟩

/-- Witness for C8: swapping two directory entries changes no tool output. -/
theorem c8_witness :
    fsMd.entries.Perm fsMdSwapped.entries ∧
    list_files_in_directory_tool fsMd "" "*.md" =
      list_files_in_directory_tool fsMdSwapped "" "*.md" ∧
    search_file_content_tool fsMd "b" "*.md" =
      search_file_content_tool fsMdSwapped "b" "*.md" := by
  have hperm : fsMd.entries.Perm fsMdSwapped.entries :=
    List.Perm.cons _ (List.Perm.swap _ _ _)
  exact ⟨hperm,
    (c8_order_independent fsMd fsMdSwapped hperm (by decide)).2.1 "" "*.md",
    (c8_order_independent fsMd fsMdSwapped hperm (by decide)).2.2.2 "b" "*.md"⟩
